import Mathlib

/-!
A shallow embedding of `src/bin/submission_prep.py` (the submission
preparation orchestrator) together with proofs about its staging,
platform routing, sentinel/log discipline and sample construction.

Filesystem paths are modelled as lists of path components
(`os.path.join a b` becomes list append), the filesystem as a record of
existing directories plus an association list from file paths to their
textual content.  External effects performed by the helper-module
builders (`init_xml_root`, `add_sample`, `finalize_xml`,
`genbank_submission_driver`) and by config/metadata loading are modelled
by an oracle that says which of those calls raise; a run produces the
final filesystem, a trace of the externally visible events in program
order, and `some err` when a Python exception escaped `main_prepare`.
-/

/-- A filesystem path, one list entry per component
(`os.path.join` is list append). -/
abbrev FPath := List String

/-- Association-list lookup used for the file store
(first matching key wins; `setFile` keeps keys unique). -/
def lookupFile : List (FPath × String) → FPath → Option String
  | [], _ => none
  | (q, d) :: rest, p => if q = p then some d else lookupFile rest p

/-- Insert-or-replace for the file store. -/
def setFile : List (FPath × String) → FPath → String → List (FPath × String)
  | [], p, c => [(p, c)]
  | (q, d) :: rest, p, c =>
    if q = p then (p, c) :: rest else (q, d) :: setFile rest p c

/-- The modelled filesystem state: the set of directories that exist and
the files with their content. -/
structure FS where
  dirs : List FPath
  files : List (FPath × String)
deriving Repr, DecidableEq

/-- The empty filesystem a run starts from. -/
def FS.empty : FS := ⟨[], []⟩

/-- Models `os.makedirs(d, exist_ok=True)`. -/
def FS.mkdirp (fs : FS) (d : FPath) : FS :=
  if d ∈ fs.dirs then fs else ⟨fs.dirs ++ [d], fs.files⟩

/-- Models `open(p, "w")` followed by writing `c` (truncate-or-create). -/
def FS.writeFile (fs : FS) (p : FPath) (c : String) : FS :=
  ⟨fs.dirs, setFile fs.files p c⟩

/-- Models `open(p, "a")` followed by writing `c` (append, creating the file
when absent). -/
def FS.appendFile (fs : FS) (p : FPath) (c : String) : FS :=
  match lookupFile fs.files p with
  | some d => ⟨fs.dirs, setFile fs.files p (d ++ c)⟩
  | none => ⟨fs.dirs, setFile fs.files p c⟩

/-- Models `os.path.exists p`: true for an existing file or directory. -/
def FS.pathExists (fs : FS) (p : FPath) : Prop :=
  (lookupFile fs.files p).isSome ∨ p ∈ fs.dirs

instance (fs : FS) (p : FPath) : Decidable (fs.pathExists p) := by
  unfold FS.pathExists; infer_instance

/-- Python truthiness of an optional string field of a `Sample`
(`None` and the empty string are falsy). -/
def truthy : Option String → Bool
  | none => false
  | some s => !s.isEmpty

/-- The `Sample` record built by `main_prepare` from one parsed
key=value descriptor (the constructor of `submission_helper.Sample`
just stores its keyword arguments, per the spec data model). -/
structure Sample where
  sample_id : String
  batch_id : String
  fastq1 : Option String
  fastq2 : Option String
  nanopore : Option String
  species : String
  databases : List String
  fasta_file : Option String
  annotation_file : Option String
deriving Repr, DecidableEq

/-- Helper for `splitChar`: splits the remaining character list on `c`,
with `acc` the (reversed) characters of the current field. -/
def splitCharAux (c : Char) : List Char → List Char → List String
  | [], acc => [String.mk acc.reverse]
  | x :: xs, acc =>
    if x = c then String.mk acc.reverse :: splitCharAux c xs []
    else splitCharAux c xs (x :: acc)

/-- The Python `s.split(c)` for a single-character separator `c`
(always returns at least one field; `"".split(c) = [""]`). -/
def splitChar (c : Char) (s : String) : List String :=
  splitCharAux c s.toList []

/-- Modelled from the spec: `get_compound_extension` lives in the
helper module `submission_helper`, which is not part of the sources
here.  Per the spec it returns the *compound* extension of a path,
preserving multi-part suffixes such as `.fastq.gz` in full: everything
from the first dot of the basename onward. -/
def get_compound_extension (p : String) : String :=
  match (splitChar '/' p).getLastD "" |> splitChar '.' with
  | [] => ""
  | _stem :: exts => String.join (exts.map (fun e => "." ++ e))

/-- Destination path of the staged R1 file for sample `s` in `outdir`:
`os.path.join(outdir, f"{s.sample_id}_R1{ext1}")` of the source. -/
def destFq1 (outdir : FPath) (s : Sample) : FPath :=
  outdir ++ [s.sample_id ++ "_R1" ++ get_compound_extension (s.fastq1.getD "")]

/-- Destination path of the staged R2 file for sample `s` in `outdir`. -/
def destFq2 (outdir : FPath) (s : Sample) : FPath :=
  outdir ++ [s.sample_id ++ "_R2" ++ get_compound_extension (s.fastq2.getD "")]

/-- Externally visible events of a run, in program order. -/
inductive Ev where
  | mkdirE (d : FPath)
  | initXmlRoot (dir : FPath)
  | addSampleE (dir : FPath) (sid : String)
  | finalizeOk (dir : FPath)
  | sentinelE (dir : FPath)
  | driveE (dir : FPath) (sid : String)
  | linkE (src : String) (dst : FPath)
  | copyE (src : String) (dst : FPath)
deriving Repr, DecidableEq

/-- One `if not os.path.exists(dest): copy-or-symlink` step of
`prepare_sra_fastqs`.  The content written records the placement mode
and source; copying/linking itself cannot fail in this model (the
filesystem model has no permission or missing-source failures). -/
def stageOne (copy : Bool) (src : String) (dst : FPath) (fs : FS) :
    FS × List Ev :=
  if fs.pathExists dst then (fs, [])
  else if copy then (fs.writeFile dst ("copy-of:" ++ src), [.copyE src dst])
  else (fs.writeFile dst ("link-to:" ++ src), [.linkE src dst])

/-- The function `prepare_sra_fastqs(samples, outdir, copy)` of the source: for each
sample with both paired files (Python-)present, stage
`{sample_id}_R1{ext1}` and `{sample_id}_R2{ext2}` into `outdir`,
skipping any destination that already exists. -/
def prepare_sra_fastqs (samples : List Sample) (outdir : FPath)
    (copy : Bool) (fs : FS) : FS × List Ev :=
  match samples with
  | [] => (fs, [])
  | s :: rest =>
    if truthy s.fastq1 && truthy s.fastq2 then
      let r1 := stageOne copy (s.fastq1.getD "") (destFq1 outdir s) fs
      let r2 := stageOne copy (s.fastq2.getD "") (destFq2 outdir s) r1.1
      let r3 := prepare_sra_fastqs rest outdir copy r2.1
      (r3.1, r1.2 ++ r2.2 ++ r3.2)
    else prepare_sra_fastqs rest outdir copy fs

example : get_compound_extension "/a/S1.fastq.gz" = ".fastq.gz" := by decide
example : get_compound_extension "plain" = "" := by decide
example : get_compound_extension "/b/x.gz" = ".gz" := by decide

/-- The configuration the orchestrator reads
(`params` of `GetParams().parameters`, restricted to the keys
`main_prepare` uses; `sampleDescs` is `params["sample"]`). -/
structure Params where
  outdir : FPath
  metadata_file : String
  species : String
  identifier : String
  submission_mode : String
  test : Bool
  biosample : Bool
  sra : Bool
  genbank : Bool
  sampleDescs : List String

/-- Models `item.split("=")`, succeeding exactly when it yields two fields, as
required by the Python `dict(...)` constructor over the split pairs. -/
def parseItem (item : String) : Option (String × String) :=
  match splitChar '=' item with
  | [k, v] => some (k, v)
  | _ => none

/-- Models `dict(item.split("=") for item in s.split(","))`:
`none` models the `ValueError` Python raises when some item does not
split into exactly two fields. -/
def parseDescriptor (s : String) : Option (List (String × String)) :=
  (splitChar ',' s).mapM parseItem

/-- Python `dict` lookup over the parsed pair list: the *last* binding
of a key wins, absent keys give `none` (`d.get(k)`). -/
def dictGet (d : List (String × String)) (k : String) : Option String :=
  (d.reverse.find? (fun kv => kv.1 = k)).map (fun kv => kv.2)

/-- The `databases` list computed inside the sample-construction loop:
`[db for db in params if params[db] and db in [biosample, sra, genbank]]`
— a function of the configuration flags only. -/
def dbList (p : Params) : List String :=
  (if p.biosample then ["biosample"] else []) ++
    (if p.sra then ["sra"] else []) ++
    (if p.genbank then ["genbank"] else [])

/-- The errors (Python exceptions) a modelled run can end with. -/
inductive Err where
  | malformedDescriptor (desc : String)
  | configError
  | metadataError
  | builderError (dir : FPath) (stage : String)
deriving Repr, DecidableEq

/-- Construction of one `Sample` from a raw descriptor string
(`main_prepare`, sample-building loop).  `malformedDescriptor` covers
both failure modes of the source line: an item that does not split into
a key/value pair (`ValueError`) and a missing `sample_id` key
(`KeyError`). -/
def mkSample (p : Params) (batch_id : String) (s : String) :
    Except Err Sample :=
  match parseDescriptor s with
  | none => .error (.malformedDescriptor s)
  | some d =>
    match dictGet d "sample_id" with
    | none => .error (.malformedDescriptor s)
    | some sid =>
      .ok { sample_id := sid
            batch_id := batch_id
            fastq1 := dictGet d "fq1"
            fastq2 := dictGet d "fq2"
            nanopore := dictGet d "nanopore"
            species := p.species
            databases := dbList p
            fasta_file := dictGet d "fasta"
            annotation_file := dictGet d "gff" }

/-- The whole sample-building loop: the first malformed descriptor
aborts the run. -/
def buildSamples (p : Params) (batch_id : String) :
    List String → Except Err (List Sample)
  | [] => .ok []
  | s :: rest =>
    match mkSample p batch_id s with
    | .error e => .error e
    | .ok smp =>
      match buildSamples p batch_id rest with
      | .error e => .error e
      | .ok more => .ok (smp :: more)

/-- Models `batch_id = os.path.splitext(os.path.basename(metadata_file))[0]`:
the basename with its last dot-extension removed. -/
def batchId (p : Params) : String :=
  match splitChar '.' ((splitChar '/' p.metadata_file).getLastD "") with
  | [] => ""
  | [stem] => stem
  | parts => String.intercalate "." parts.dropLast

/-- The platform routing of the SRA section (source line
`platforms = ((illumina, illum), (nanopore, nano)) if illum and nano
else [(None, illum or nano)]`). -/
def platformsOf (samples : List Sample) :
    List (Option String × List Sample) :=
  let illum := samples.filter (fun s => truthy s.fastq1 && truthy s.fastq2)
  let nano := samples.filter (fun s => truthy s.nanopore)
  if illum ≠ [] ∧ nano ≠ [] then
    [(some "illumina", illum), (some "nanopore", nano)]
  else
    [(none, if illum ≠ [] then illum else nano)]

/-- Which of the externally implemented calls raise: the builder
lifecycle methods and the config/metadata loading.  `main_prepare`
itself installs no exception handler, so a `true` here aborts the run
at that point. -/
structure Oracle where
  configFails : Bool
  metadataFails : Bool
  initXmlFails : FPath → Bool
  addFails : FPath → String → Bool
  finalizeFails : FPath → Bool
  driveFails : FPath → String → Bool

/-- The oracle under which every external call succeeds. -/
def Oracle.allOk : Oracle :=
  ⟨false, false, fun _ => false, fun _ _ => false, fun _ => false,
    fun _ _ => false⟩

/-- The `for s in samples: builder.add_sample(s, md)` loop of a
biosample/SRA section (metadata row extraction is a read-only lookup
with no modelled effect). -/
def addLoop (o : Oracle) (dir : FPath) : List Sample →
    List Ev × Option Err
  | [] => ([], none)
  | s :: rest =>
    if o.addFails dir s.sample_id then
      ([], some (.builderError dir "add_sample"))
    else
      let r := addLoop o dir rest
      (.addSampleE dir s.sample_id :: r.1, r.2)

/-- One biosample/SRA submission bucket: `os.makedirs(dir)`, builder
construction, `init_xml_root`, the `add_sample` loop, `finalize_xml`,
then `open(os.path.join(dir, "submit.ready"), "w").close()`. -/
def bucketPhase (o : Oracle) (dir : FPath) (samples : List Sample)
    (fs : FS) : FS × List Ev × Option Err :=
  let fs1 := fs.mkdirp dir
  if o.initXmlFails dir then
    (fs1, [.mkdirE dir], some (.builderError dir "init_xml_root"))
  else
    let r := addLoop o dir samples
    match r.2 with
    | some e => (fs1, .mkdirE dir :: .initXmlRoot dir :: r.1, some e)
    | none =>
      if o.finalizeFails dir then
        (fs1, .mkdirE dir :: .initXmlRoot dir :: r.1,
          some (.builderError dir "finalize_xml"))
      else
        (fs1.writeFile (dir ++ ["submit.ready"]) "",
          .mkdirE dir :: .initXmlRoot dir :: r.1 ++
            [.finalizeOk dir, .sentinelE dir],
          none)

/-- Submission directory of one SRA platform bucket
(`os.path.join(output_root, "sra", platform)` when a platform label is
present, else `os.path.join(output_root, "sra")`). -/
def sraDir (outRoot : FPath) : Option String → FPath
  | some pl => outRoot ++ ["sra", pl]
  | none => outRoot ++ ["sra"]

/-- The `for platform, samp_list in platforms` loop of the SRA section:
per bucket, a `bucketPhase` followed by
`prepare_sra_fastqs(samp_list, submission_dir, copy=False)`. -/
def sraBuckets (o : Oracle) (outRoot : FPath) :
    List (Option String × List Sample) → FS → FS × List Ev × Option Err
  | [], fs => (fs, [], none)
  | (plat, ss) :: rest, fs =>
    let dir := sraDir outRoot plat
    let r1 := bucketPhase o dir ss fs
    match r1.2.2 with
    | some e => (r1.1, r1.2.1, some e)
    | none =>
      let r2 := prepare_sra_fastqs ss dir false r1.1
      let r3 := sraBuckets o outRoot rest r2.1
      (r3.1, r1.2.1 ++ r2.2 ++ r3.2.1, r3.2.2)

/-- The GenBank section: per sample, its own submission directory
`os.path.join(output_root, "genbank", s.sample_id)` and one call of
`genbank_submission_driver`; there is no per-sample exception handler,
so a raising driver aborts the whole loop. -/
def genbankLoop (o : Oracle) (outRoot : FPath) :
    List Sample → FS → FS × List Ev × Option Err
  | [], fs => (fs, [], none)
  | s :: rest, fs =>
    let dir := outRoot ++ ["genbank", s.sample_id]
    let fs1 := fs.mkdirp dir
    if o.driveFails dir s.sample_id then
      (fs1, [.mkdirE dir], some (.builderError dir "genbank_driver"))
    else
      let r := genbankLoop o outRoot rest fs1
      (r.1, .mkdirE dir :: .driveE dir s.sample_id :: r.2.1, r.2.2)

/-- Sequencing of two effectful sections: the second runs only when the
first did not raise, traces concatenate. -/
def andThen (r : FS × List Ev × Option Err)
    (k : FS → FS × List Ev × Option Err) : FS × List Ev × Option Err :=
  match r with
  | (fs, tr, some e) => (fs, tr, some e)
  | (fs, tr, none) =>
    let r' := k fs
    (r'.1, tr ++ r'.2.1, r'.2.2)

/-- The three repository sections of `main_prepare`, each guarded by
its configuration flag. -/
def phases (p : Params) (o : Oracle) (samples : List Sample) (fs : FS) :
    FS × List Ev × Option Err :=
  andThen
    (if p.biosample then
      bucketPhase o (p.outdir ++ ["biosample"]) samples fs
    else (fs, [], none))
    (fun fs1 =>
      andThen
        (if p.sra then sraBuckets o p.outdir (platformsOf samples) fs1
        else (fs1, [], none))
        (fun fs2 =>
          if p.genbank then genbankLoop o p.outdir samples fs2
          else (fs2, [], none)))

/-- The completion-log path fixed near the start of `main_prepare`:
`os.path.join(params["outdir"], "prep_submission.log")`. -/
def logPath (p : Params) : FPath := p.outdir ++ ["prep_submission.log"]

/-- Whitespace test for `content.strip()`. -/
def isWS (c : Char) : Bool :=
  c = ' ' || c = '\t' || c = '\n' || c = '\r'

/-- Models the Python `not content.strip()`: the string contains only
whitespace. -/
def stripEmpty (s : String) : Bool :=
  s.toList.all isWS

/-- The end-of-run log block of `main_prepare` (source lines 165-204):
append the completion line, recreate the file if it vanished, and
append a verification line if the content reads back blank. -/
def endOfRunLog (lp : FPath) (fs : FS) : FS :=
  let fs1 := fs.appendFile lp "[INFO] Script completed successfully\n"
  let fs2 :=
    if (lookupFile fs1.files lp).isNone then
      fs1.writeFile lp
        ("[INFO] Log file created at end of script\n" ++
          "[INFO] Script completed successfully\n")
    else fs1
  match lookupFile fs2.files lp with
  | some c =>
    if stripEmpty c then
      fs2.appendFile lp "[INFO] Log file verified at end\n"
    else fs2
  | none => fs2

/-- The function `main_prepare()`: create the output root, eagerly create and write
the log file, load config and metadata, build the samples, then run the
three repository sections and the end-of-run log block.  The returned
`Option Err` is the exception escaping the function, with the
filesystem and event trace at that point. -/
def main_prepare (p : Params) (o : Oracle) : FS × List Ev × Option Err :=
  let fs1 := FS.empty.mkdirp p.outdir
  let lp := logPath p
  let fs2 :=
    (fs1.writeFile lp "[INFO] Log file initialized\n").appendFile lp
      "[INFO] Started logging for preparation.\n"
  if o.configFails then (fs2, [.mkdirE p.outdir], some .configError)
  else if o.metadataFails then (fs2, [.mkdirE p.outdir], some .metadataError)
  else
    match buildSamples p (batchId p) p.sampleDescs with
    | .error e => (fs2, [.mkdirE p.outdir], some e)
    | .ok samples =>
      let r := phases p o samples fs2
      match r.2.2 with
      | some e => (r.1, .mkdirE p.outdir :: r.2.1, some e)
      | none => (endOfRunLog lp r.1, .mkdirE p.outdir :: r.2.1, none)

/-- The `if __name__ == "__main__"` block: run `main_prepare`; on
success append the exiting-normally line (guarded by
`os.path.exists`); on an escaping exception append the
`[ERROR] Script failed` line to the stored log path and re-raise. -/
def topRun (p : Params) (o : Oracle) : FS × List Ev × Option Err :=
  let r := main_prepare p o
  match r.2.2 with
  | none =>
    (if (lookupFile r.1.files (logPath p)).isSome then
      r.1.appendFile (logPath p) "[INFO] Script exiting normally\n"
    else r.1, r.2.1, none)
  | some e =>
    (r.1.appendFile (logPath p) "[ERROR] Script failed\n", r.2.1, some e)

theorem lookupFile_setFile_self (l : List (FPath × String)) (p : FPath)
    (c : String) : lookupFile (setFile l p c) p = some c := by
  induction l with
  | nil => simp [setFile, lookupFile]
  | cons kv rest ih =>
    obtain ⟨q, d⟩ := kv
    by_cases h : q = p
    · simp [setFile, h, lookupFile]
    · simp [setFile, h, lookupFile, ih]

theorem lookupFile_setFile_ne (l : List (FPath × String)) (p q : FPath)
    (c : String) (h : q ≠ p) :
    lookupFile (setFile l p c) q = lookupFile l q := by
  induction l with
  | nil => simp [setFile, lookupFile, Ne.symm h]
  | cons kv rest ih =>
    obtain ⟨q', d⟩ := kv
    by_cases h' : q' = p
    · subst h'
      simp [setFile, lookupFile, Ne.symm h]
    · simp only [setFile, if_neg h', lookupFile]
      by_cases h'' : q' = q
      · simp [h'']
      · simp [h'', ih]

theorem pathExists_writeFile (fs : FS) (p : FPath) (c : String) (q : FPath)
    (h : fs.pathExists q) : (fs.writeFile p c).pathExists q := by
  rcases h with h | h
  · by_cases hqp : q = p
    · subst hqp
      exact Or.inl (by rw [FS.writeFile, lookupFile_setFile_self]; rfl)
    · exact Or.inl (by rw [FS.writeFile]; rwa [lookupFile_setFile_ne _ _ _ _ hqp])
  · exact Or.inr h

theorem pathExists_writeFile_self (fs : FS) (p : FPath) (c : String) :
    (fs.writeFile p c).pathExists p :=
  Or.inl (by rw [FS.writeFile, lookupFile_setFile_self]; rfl)

theorem pathExists_appendFile (fs : FS) (p : FPath) (c : String) (q : FPath)
    (h : fs.pathExists q) : (fs.appendFile p c).pathExists q := by
  rw [FS.appendFile]
  rcases hl : lookupFile fs.files p with _ | d
  · exact pathExists_writeFile fs p c q h
  · exact pathExists_writeFile fs p (d ++ c) q h

theorem pathExists_mkdirp (fs : FS) (d : FPath) (q : FPath)
    (h : fs.pathExists q) : (fs.mkdirp d).pathExists q := by
  rw [FS.mkdirp]
  split
  · exact h
  · rcases h with h | h
    · exact Or.inl h
    · exact Or.inr (List.mem_append_left _ h)

theorem stageOne_of_exists (c : Bool) (src : String) (dst : FPath) (fs : FS)
    (h : fs.pathExists dst) : stageOne c src dst fs = (fs, []) := by
  simp [stageOne, h]

theorem stageOne_exists_self (c : Bool) (src : String) (dst : FPath)
    (fs : FS) : (stageOne c src dst fs).1.pathExists dst := by
  rw [stageOne]
  split
  · assumption
  · split
    · exact pathExists_writeFile_self _ _ _
    · exact pathExists_writeFile_self _ _ _

theorem stageOne_mono (c : Bool) (src : String) (dst : FPath) (fs : FS)
    (q : FPath) (h : fs.pathExists q) : (stageOne c src dst fs).1.pathExists q := by
  rw [stageOne]
  split
  · assumption
  · split
    · exact pathExists_writeFile _ _ _ _ h
    · exact pathExists_writeFile _ _ _ _ h

theorem pathExists_writeFile_iff (fs : FS) (p : FPath) (c : String)
    (q : FPath) :
    (fs.writeFile p c).pathExists q ↔ fs.pathExists q ∨ q = p := by
  constructor
  · intro h
    rcases h with h | h
    · by_cases hqp : q = p
      · exact Or.inr hqp
      · rw [FS.writeFile] at h
        rw [lookupFile_setFile_ne _ _ _ _ hqp] at h
        exact Or.inl (Or.inl h)
    · exact Or.inl (Or.inr h)
  · intro h
    rcases h with h | h
    · exact pathExists_writeFile _ _ _ _ h
    · subst h; exact pathExists_writeFile_self _ _ _

theorem stageOne_exists_iff (c : Bool) (src : String) (dst : FPath) (fs : FS)
    (q : FPath) :
    (stageOne c src dst fs).1.pathExists q ↔ fs.pathExists q ∨ q = dst := by
  rw [stageOne]
  split
  · rename_i h
    constructor
    · exact Or.inl
    · rintro (hq | rfl)
      · exact hq
      · exact h
  · split
    · exact pathExists_writeFile_iff _ _ _ _
    · exact pathExists_writeFile_iff _ _ _ _

theorem prepare_mono (ss : List Sample) (dir : FPath) (c : Bool) (fs : FS)
    (q : FPath) (h : fs.pathExists q) :
    (prepare_sra_fastqs ss dir c fs).1.pathExists q := by
  induction ss generalizing fs with
  | nil => exact h
  | cons a rest ih =>
    rw [prepare_sra_fastqs]
    split
    · exact ih _ (stageOne_mono _ _ _ _ _ (stageOne_mono _ _ _ _ _ h))
    · exact ih _ h

theorem prepare_exists_dests (ss : List Sample) (dir : FPath) (c : Bool)
    (fs : FS) (s : Sample) (hs : s ∈ ss) (h1 : truthy s.fastq1 = true)
    (h2 : truthy s.fastq2 = true) :
    (prepare_sra_fastqs ss dir c fs).1.pathExists (destFq1 dir s) ∧
      (prepare_sra_fastqs ss dir c fs).1.pathExists (destFq2 dir s) := by
  induction ss generalizing fs with
  | nil => cases hs
  | cons a rest ih =>
    rcases List.mem_cons.mp hs with rfl | hmem
    · rw [prepare_sra_fastqs]
      rw [if_pos (by rw [h1, h2]; rfl)]
      constructor
      · exact prepare_mono _ _ _ _ _
          (stageOne_mono _ _ _ _ _ (stageOne_exists_self _ _ _ _))
      · exact prepare_mono _ _ _ _ _ (stageOne_exists_self _ _ _ _)
    · rw [prepare_sra_fastqs]
      split
      · exact ih _ hmem
      · exact ih _ hmem

theorem prepare_noop (ss : List Sample) (dir : FPath) (c : Bool) (fs : FS)
    (h : ∀ s ∈ ss, truthy s.fastq1 = true → truthy s.fastq2 = true →
      fs.pathExists (destFq1 dir s) ∧ fs.pathExists (destFq2 dir s)) :
    prepare_sra_fastqs ss dir c fs = (fs, []) := by
  induction ss with
  | nil => rfl
  | cons a rest ih =>
    rw [prepare_sra_fastqs]
    split
    · rename_i hta
      have h1 : truthy a.fastq1 = true := (Bool.and_eq_true _ _ |>.mp hta).1
      have h2 : truthy a.fastq2 = true := (Bool.and_eq_true _ _ |>.mp hta).2
      have ha := h a (List.mem_cons_self _ _) h1 h2
      simp only [stageOne_of_exists _ _ _ _ ha.1,
        stageOne_of_exists _ _ _ _ ha.2,
        ih (fun s hs => h s (List.mem_cons_of_mem _ hs)),
        List.append_nil]
    · exact ih (fun s hs => h s (List.mem_cons_of_mem _ hs))

/-- C4: running `prepare_sra_fastqs` a second time on the filesystem the
first run produced changes nothing — every destination file already
exists after the first run, so the second run takes every
`os.path.exists` skip branch, performing no copy/link action (and hence
nothing that could raise) and leaving the destination files exactly as
the single run left them. -/
theorem staging_idempotent (ss : List Sample) (dir : FPath) (c : Bool)
    (fs : FS) :
    prepare_sra_fastqs ss dir c (prepare_sra_fastqs ss dir c fs).1 =
      ((prepare_sra_fastqs ss dir c fs).1, []) :=
  prepare_noop ss dir c _
    (fun s hs h1 h2 => prepare_exists_dests ss dir c fs s hs h1 h2)

/-- C5: staging a single sample acts only when both paired files are
(Python-)present — a sample missing either file leaves the filesystem
untouched and performs no action — and when it acts, the only paths it
can add are exactly the two destinations named
`{sample_id}_R1{ext1}` and `{sample_id}_R2{ext2}` inside the target
directory, where each ext is the compound extension of the
corresponding source file. -/
theorem staging_guard_and_naming (s : Sample) (dir : FPath) (c : Bool)
    (fs : FS) :
    (¬(truthy s.fastq1 = true ∧ truthy s.fastq2 = true) →
      prepare_sra_fastqs [s] dir c fs = (fs, [])) ∧
    (truthy s.fastq1 = true → truthy s.fastq2 = true → ∀ q : FPath,
      ((prepare_sra_fastqs [s] dir c fs).1.pathExists q ↔
        fs.pathExists q ∨
          q = dir ++ [s.sample_id ++ "_R1" ++
            get_compound_extension (s.fastq1.getD "")] ∨
          q = dir ++ [s.sample_id ++ "_R2" ++
            get_compound_extension (s.fastq2.getD "")])) := by
  constructor
  · intro h
    rw [prepare_sra_fastqs]
    rw [if_neg (by rw [Bool.and_eq_true]; exact h)]
    rfl
  · intro h1 h2 q
    rw [prepare_sra_fastqs]
    rw [if_pos (by rw [h1, h2]; rfl)]
    show (stageOne c (s.fastq2.getD "") (destFq2 dir s)
        (stageOne c (s.fastq1.getD "") (destFq1 dir s) fs).1).1.pathExists q
      ↔ _
    rw [stageOne_exists_iff, stageOne_exists_iff]
    rw [or_assoc]
    exact Iff.rfl

/-- Closed witness for `staging_guard_and_naming` at a concrete sample
with both paired files present. -/
theorem staging_guard_and_naming_witness :
    (truthy (some "/a/S1_R1.fastq.gz") = true ∧
        truthy (some "/a/S1_R2.fastq.gz") = true) ∧
      ((prepare_sra_fastqs
          [⟨"S1", "b", some "/a/S1_R1.fastq.gz", some "/a/S1_R2.fastq.gz",
            none, "sp", [], none, none⟩]
          ["out", "sra"] false FS.empty).1.pathExists
          ["out", "sra", "S1_R1.fastq.gz"] ↔
        FS.empty.pathExists ["out", "sra", "S1_R1.fastq.gz"] ∨
          ["out", "sra", "S1_R1.fastq.gz"] =
            ["out", "sra"] ++ ["S1" ++ "_R1" ++
              get_compound_extension ((some "/a/S1_R1.fastq.gz").getD "")] ∨
          ["out", "sra", "S1_R1.fastq.gz"] =
            ["out", "sra"] ++ ["S1" ++ "_R2" ++
              get_compound_extension ((some "/a/S1_R2.fastq.gz").getD "")]) :=
  ⟨⟨by decide, by decide⟩,
    (staging_guard_and_naming
      ⟨"S1", "b", some "/a/S1_R1.fastq.gz", some "/a/S1_R2.fastq.gz",
        none, "sp", [], none, none⟩
      ["out", "sra"] false FS.empty).2 (by decide) (by decide)
      ["out", "sra", "S1_R1.fastq.gz"]⟩

/-- C3: the platform routing of the SRA section.  When both the
paired-short-read subset and the long-read subset are non-empty the
router yields exactly the two buckets labeled "illumina" and
"nanopore", and a sample with both modalities is a member of both;
when exactly one subset is non-empty the router yields exactly one
unlabeled bucket holding that subset. -/
theorem router_buckets (samples : List Sample) :
    (samples.filter (fun s => truthy s.fastq1 && truthy s.fastq2) ≠ [] →
      samples.filter (fun s => truthy s.nanopore) ≠ [] →
      platformsOf samples =
        [(some "illumina",
            samples.filter (fun s => truthy s.fastq1 && truthy s.fastq2)),
          (some "nanopore", samples.filter (fun s => truthy s.nanopore))] ∧
        ∀ s ∈ samples, truthy s.fastq1 = true → truthy s.fastq2 = true →
          truthy s.nanopore = true →
          s ∈ samples.filter (fun s => truthy s.fastq1 && truthy s.fastq2) ∧
            s ∈ samples.filter (fun s => truthy s.nanopore)) ∧
    (samples.filter (fun s => truthy s.fastq1 && truthy s.fastq2) ≠ [] →
      samples.filter (fun s => truthy s.nanopore) = [] →
      platformsOf samples =
        [(none,
          samples.filter (fun s => truthy s.fastq1 && truthy s.fastq2))]) ∧
    (samples.filter (fun s => truthy s.fastq1 && truthy s.fastq2) = [] →
      samples.filter (fun s => truthy s.nanopore) ≠ [] →
      platformsOf samples =
        [(none, samples.filter (fun s => truthy s.nanopore))]) := by
  refine ⟨fun hi hn => ⟨?_, ?_⟩, fun hi hn => ?_, fun hi hn => ?_⟩
  · simp only [platformsOf]
    rw [if_pos ⟨hi, hn⟩]
  · intro s hs h1 h2 h3
    exact ⟨List.mem_filter.mpr ⟨hs, by rw [h1, h2]; rfl⟩,
      List.mem_filter.mpr ⟨hs, h3⟩⟩
  · simp only [platformsOf]
    rw [if_neg (fun h => h.2 hn)]
    rw [if_pos hi]
  · simp only [platformsOf]
    rw [if_neg (fun h => h.1 hi)]
    rw [if_neg (fun h => h hi)]

/-- Concrete sample with both sequencing modalities, used by closed
witnesses below. -/
def exSampleBoth : Sample :=
  ⟨"S1", "b", some "x.fq", some "y.fq", some "z.fq", "sp", [], none, none⟩

/-- Concrete nanopore-only sample, used by closed witnesses below. -/
def exSampleNano : Sample :=
  ⟨"S2", "b", none, none, some "w.fq", "sp", [], none, none⟩

/-- Closed witness for `router_buckets`: one dual-modality sample and
one nanopore-only sample give the two labeled buckets, with the
dual-modality sample in both. -/
theorem router_buckets_witness :
    ([exSampleBoth, exSampleNano].filter
        (fun s => truthy s.fastq1 && truthy s.fastq2) ≠ [] ∧
      [exSampleBoth, exSampleNano].filter
        (fun s => truthy s.nanopore) ≠ []) ∧
      platformsOf [exSampleBoth, exSampleNano] =
        [(some "illumina", [exSampleBoth]),
          (some "nanopore", [exSampleBoth, exSampleNano])] ∧
      exSampleBoth ∈ [exSampleBoth, exSampleNano].filter
        (fun s => truthy s.fastq1 && truthy s.fastq2) ∧
      exSampleBoth ∈ [exSampleBoth, exSampleNano].filter
        (fun s => truthy s.nanopore) := by
  have h := (router_buckets [exSampleBoth, exSampleNano]).1
    (by decide) (by decide)
  have hm := h.2 exSampleBoth (by decide) (by decide) (by decide) (by decide)
  refine ⟨⟨by decide, by decide⟩, ?_, hm.1, hm.2⟩
  rw [h.1]
  decide

/-- Temporal safety predicate on traces: every sentinel write for a
directory is strictly preceded by a successful finalize of that
directory. -/
def SentinelAfterFinalize (tr : List Ev) : Prop :=
  ∀ i : Nat, ∀ d : FPath, tr[i]? = some (Ev.sentinelE d) →
    ∃ j : Nat, j < i ∧ tr[j]? = some (Ev.finalizeOk d)

/-- Traces without sentinel writes. -/
def NoSentinel (tr : List Ev) : Prop :=
  ∀ d : FPath, Ev.sentinelE d ∉ tr

theorem SAF_of_noSentinel (tr : List Ev) (h : NoSentinel tr) :
    SentinelAfterFinalize tr := by
  intro i d hi
  exact absurd (List.getElem?_mem hi) (h d)

theorem SAF_append (t₁ t₂ : List Ev) (h₁ : SentinelAfterFinalize t₁)
    (h₂ : SentinelAfterFinalize t₂) : SentinelAfterFinalize (t₁ ++ t₂) := by
  intro i d hi
  by_cases hlen : i < t₁.length
  · rw [List.getElem?_append_left hlen] at hi
    obtain ⟨j, hj, hje⟩ := h₁ i d hi
    exact ⟨j, hj, by rw [List.getElem?_append_left (by omega)]; exact hje⟩
  · rw [List.getElem?_append_right (by omega)] at hi
    obtain ⟨j, hj, hje⟩ := h₂ _ d hi
    refine ⟨t₁.length + j, by omega, ?_⟩
    rw [List.getElem?_append_right (by omega)]
    simpa using hje

theorem SAF_nil : SentinelAfterFinalize [] := by
  intro i d hi
  simp at hi

theorem SAF_pair (d : FPath) :
    SentinelAfterFinalize [Ev.finalizeOk d, Ev.sentinelE d] := by
  intro i d' hi
  match i with
  | 0 => simp at hi
  | 1 =>
    simp at hi
    exact ⟨0, Nat.zero_lt_one, by rw [← hi]; rfl⟩
  | (n + 2) => simp at hi

theorem noSentinel_addLoop (o : Oracle) (dir : FPath) (ss : List Sample) :
    NoSentinel (addLoop o dir ss).1 := by
  induction ss with
  | nil => intro d h; simp [addLoop] at h
  | cons a rest ih =>
    intro d h
    rw [addLoop] at h
    split at h
    · simp at h
    · rcases List.mem_cons.mp h with h | h
      · cases h
      · exact ih d h

theorem noSentinel_stageOne (c : Bool) (src : String) (dst : FPath)
    (fs : FS) : NoSentinel (stageOne c src dst fs).2 := by
  intro d h
  rw [stageOne] at h
  split at h
  · cases h
  · split at h
    · rcases List.mem_cons.mp h with h | h
      · cases h
      · cases h
    · rcases List.mem_cons.mp h with h | h
      · cases h
      · cases h

theorem noSentinel_prepare (ss : List Sample) (dir : FPath) (c : Bool)
    (fs : FS) : NoSentinel (prepare_sra_fastqs ss dir c fs).2 := by
  induction ss generalizing fs with
  | nil => intro d h; cases h
  | cons a rest ih =>
    intro d h
    rw [prepare_sra_fastqs] at h
    split at h
    · rcases List.mem_append.mp h with h | h
      · rcases List.mem_append.mp h with h | h
        · exact noSentinel_stageOne _ _ _ _ d h
        · exact noSentinel_stageOne _ _ _ _ d h
      · exact ih _ d h
    · exact ih _ d h

theorem SAF_bucketPhase (o : Oracle) (dir : FPath) (ss : List Sample)
    (fs : FS) : SentinelAfterFinalize (bucketPhase o dir ss fs).2.1 := by
  have hns : NoSentinel
      (Ev.mkdirE dir :: Ev.initXmlRoot dir :: (addLoop o dir ss).1) := by
    intro d h
    rcases List.mem_cons.mp h with h | h
    · cases h
    · rcases List.mem_cons.mp h with h | h
      · cases h
      · exact noSentinel_addLoop o dir ss d h
  simp only [bucketPhase]
  split
  · exact SAF_of_noSentinel _ (fun d h => by
      rcases List.mem_cons.mp h with h | h
      · cases h
      · cases h)
  · split <;> try split
    all_goals
      first
      | exact SAF_of_noSentinel _ hns
      | exact SAF_append
          (Ev.mkdirE dir :: Ev.initXmlRoot dir :: (addLoop o dir ss).1)
          [Ev.finalizeOk dir, Ev.sentinelE dir]
          (SAF_of_noSentinel _ hns) (SAF_pair dir)

theorem SAF_sraBuckets (o : Oracle) (outRoot : FPath)
    (buckets : List (Option String × List Sample)) (fs : FS) :
    SentinelAfterFinalize (sraBuckets o outRoot buckets fs).2.1 := by
  induction buckets generalizing fs with
  | nil => exact SAF_nil
  | cons b rest ih =>
    obtain ⟨plat, ss⟩ := b
    rw [sraBuckets]
    split
    · exact SAF_bucketPhase _ _ _ _
    · refine SAF_append _ _ (SAF_append _ _ (SAF_bucketPhase _ _ _ _)
        (SAF_of_noSentinel _ (noSentinel_prepare _ _ _ _))) (ih _)

theorem noSentinel_genbankLoop (o : Oracle) (outRoot : FPath)
    (ss : List Sample) (fs : FS) :
    NoSentinel (genbankLoop o outRoot ss fs).2.1 := by
  induction ss generalizing fs with
  | nil => intro d h; cases h
  | cons a rest ih =>
    intro d h
    rw [genbankLoop] at h
    split at h
    · simp at h
    · rcases List.mem_cons.mp h with h | h
      · cases h
      · rcases List.mem_cons.mp h with h | h
        · cases h
        · exact ih _ d h

theorem SAF_andThen (a : FS × List Ev × Option Err)
    (k : FS → FS × List Ev × Option Err)
    (ha : SentinelAfterFinalize a.2.1)
    (hk : ∀ fs, SentinelAfterFinalize (k fs).2.1) :
    SentinelAfterFinalize (andThen a k).2.1 := by
  obtain ⟨fs, tr, e⟩ := a
  cases e with
  | none => exact SAF_append _ _ ha (hk fs)
  | some e => exact ha

theorem SAF_phases (p : Params) (o : Oracle) (samples : List Sample)
    (fs : FS) : SentinelAfterFinalize (phases p o samples fs).2.1 := by
  rw [phases]
  refine SAF_andThen _ _ ?_ (fun fs1 => ?_)
  · split
    · exact SAF_bucketPhase _ _ _ _
    · exact SAF_nil
  · refine SAF_andThen _ _ ?_ (fun fs2 => ?_)
    · split
      · exact SAF_sraBuckets _ _ _ _
      · exact SAF_nil
    · split
      · exact SAF_of_noSentinel _ (noSentinel_genbankLoop _ _ _ _)
      · exact SAF_nil

theorem SAF_main_prepare (p : Params) (o : Oracle) :
    SentinelAfterFinalize (main_prepare p o).2.1 := by
  simp only [main_prepare]
  have hm : NoSentinel [Ev.mkdirE p.outdir] := by
    intro d h
    rcases List.mem_cons.mp h with h | h
    · cases h
    · cases h
  split
  · exact SAF_of_noSentinel _ hm
  · split
    · exact SAF_of_noSentinel _ hm
    · split
      · exact SAF_of_noSentinel _ hm
      · split
        · rename_i heq
          show SentinelAfterFinalize
            ([Ev.mkdirE p.outdir] ++ (phases p o _ _).2.1)
          exact SAF_append _ _ (SAF_of_noSentinel _ hm) (SAF_phases _ _ _ _)
        · rename_i heq
          show SentinelAfterFinalize
            ([Ev.mkdirE p.outdir] ++ (phases p o _ _).2.1)
          exact SAF_append _ _ (SAF_of_noSentinel _ hm) (SAF_phases _ _ _ _)

/-- C6: in every run, a `submit.ready` sentinel write for a submission
directory of the biosample or SRA sections occurs strictly after a
`finalize_xml` call for that directory that completed without raising;
a raised exception in `init_xml_root`, `add_sample` or `finalize_xml`
aborts the section before its sentinel write, so no sentinel event for
that directory ever appears. -/
theorem sentinel_only_after_finalize (p : Params) (o : Oracle) (i : Nat)
    (d : FPath) (h : (topRun p o).2.1[i]? = some (Ev.sentinelE d)) :
    ∃ j : Nat, j < i ∧ (topRun p o).2.1[j]? = some (Ev.finalizeOk d) := by
  have hs : SentinelAfterFinalize (topRun p o).2.1 := by
    rw [topRun]
    split
    · exact SAF_main_prepare p o
    · exact SAF_main_prepare p o
  exact hs i d h

/-- Concrete configuration: SRA enabled, one paired-read sample. -/
def exParamsSra : Params :=
  ⟨["out"], "meta/batch1.tsv", "sp", "id", "ftp", false, false, true, false,
    ["sample_id=S1,fq1=/a/S1_R1.fastq.gz,fq2=/a/S1_R2.fastq.gz"]⟩

/-- Closed witness for `sentinel_only_after_finalize`: in the concrete
single-bucket SRA run the sentinel event sits at index 5 of the trace
and a successful finalize precedes it. -/
theorem sentinel_only_after_finalize_witness :
    (topRun exParamsSra Oracle.allOk).2.1[5]? =
        some (Ev.sentinelE ["out", "sra"]) ∧
      ∃ j : Nat, j < 5 ∧ (topRun exParamsSra Oracle.allOk).2.1[j]? =
        some (Ev.finalizeOk ["out", "sra"]) :=
  ⟨by decide,
    sentinel_only_after_finalize exParamsSra Oracle.allOk 5 ["out", "sra"]
      (by decide)⟩

/-- The log file at `lp` exists with non-empty content. -/
def logOk (lp : FPath) (fs : FS) : Prop :=
  ∃ c, lookupFile fs.files lp = some c ∧ c ≠ ""

theorem append_ne_empty (d m : String) (hm : m ≠ "") : d ++ m ≠ "" := by
  intro h
  apply hm
  have hd : (d ++ m).data = ("" : String).data := by rw [h]
  rw [String.data_append] at hd
  have h2 : m.data = [] := (List.append_eq_nil.mp hd).2
  cases m
  simp at h2
  simp [h2]

theorem append_ne_empty_left (d m : String) (hd : d ≠ "") : d ++ m ≠ "" := by
  intro h
  apply hd
  have hh : (d ++ m).data = ("" : String).data := by rw [h]
  rw [String.data_append] at hh
  have h2 : d.data = [] := (List.append_eq_nil.mp hh).1
  cases d
  simp at h2
  simp [h2]

theorem logOk_appendFile_self (fs : FS) (lp : FPath) (m : String)
    (hm : m ≠ "") : logOk lp (fs.appendFile lp m) := by
  rw [FS.appendFile]
  rcases h : lookupFile fs.files lp with _ | d
  · exact ⟨m, lookupFile_setFile_self _ _ _, hm⟩
  · exact ⟨d ++ m, lookupFile_setFile_self _ _ _, append_ne_empty d m hm⟩

theorem logOk_appendFile (fs : FS) (lp p : FPath) (m : String)
    (h : logOk lp fs) : logOk lp (fs.appendFile p m) := by
  obtain ⟨c, hc, hcne⟩ := h
  by_cases hpl : p = lp
  · subst hpl
    rw [FS.appendFile, hc]
    exact ⟨c ++ m, lookupFile_setFile_self _ _ _, append_ne_empty_left c m hcne⟩
  · rw [FS.appendFile]
    rcases hq : lookupFile fs.files p with _ | d
    · refine ⟨c, ?_, hcne⟩
      show lookupFile (setFile fs.files p m) lp = some c
      rw [lookupFile_setFile_ne _ _ _ _ (fun he => hpl he.symm)]
      exact hc
    · refine ⟨c, ?_, hcne⟩
      show lookupFile (setFile fs.files p (d ++ m)) lp = some c
      rw [lookupFile_setFile_ne _ _ _ _ (fun he => hpl he.symm)]
      exact hc

theorem logOk_writeFile (fs : FS) (lp p : FPath) (m : String)
    (h : logOk lp fs) (hcase : p ≠ lp ∨ m ≠ "") :
    logOk lp (fs.writeFile p m) := by
  obtain ⟨c, hc, hcne⟩ := h
  by_cases hpl : p = lp
  · subst hpl
    rcases hcase with hne | hm
    · exact absurd rfl hne
    · exact ⟨m, lookupFile_setFile_self _ _ _, hm⟩
  · exact ⟨c, by rw [FS.writeFile, lookupFile_setFile_ne _ _ _ _
      (fun he => hpl he.symm)]; exact hc, hcne⟩

theorem logOk_mkdirp (fs : FS) (lp d : FPath) (h : logOk lp fs) :
    logOk lp (fs.mkdirp d) := by
  rw [FS.mkdirp]
  split
  · exact h
  · exact h

theorem logOk_stageOne (c : Bool) (src : String) (dst : FPath) (fs : FS)
    (lp : FPath) (h : logOk lp fs) : logOk lp (stageOne c src dst fs).1 := by
  rw [stageOne]
  split
  · exact h
  · split
    · exact logOk_writeFile _ _ _ _ h
        (Or.inr (append_ne_empty_left "copy-of:" src (by decide)))
    · exact logOk_writeFile _ _ _ _ h
        (Or.inr (append_ne_empty_left "link-to:" src (by decide)))

theorem logOk_prepare (ss : List Sample) (dir : FPath) (c : Bool) (fs : FS)
    (lp : FPath) (h : logOk lp fs) :
    logOk lp (prepare_sra_fastqs ss dir c fs).1 := by
  induction ss generalizing fs with
  | nil => exact h
  | cons a rest ih =>
    rw [prepare_sra_fastqs]
    split
    · exact ih _ (logOk_stageOne _ _ _ _ _ (logOk_stageOne _ _ _ _ _ h))
    · exact ih _ h

theorem logOk_bucketPhase (o : Oracle) (dir : FPath) (ss : List Sample)
    (fs : FS) (lp : FPath) (hne : dir ++ ["submit.ready"] ≠ lp)
    (h : logOk lp fs) : logOk lp (bucketPhase o dir ss fs).1 := by
  simp only [bucketPhase]
  split
  · exact logOk_mkdirp _ _ _ h
  · split <;> try split
    all_goals
      first
      | exact logOk_mkdirp _ _ _ h
      | exact logOk_writeFile _ _ _ _ (logOk_mkdirp _ _ _ h) (Or.inl hne)

theorem logOk_sraBuckets (o : Oracle) (outRoot : FPath)
    (buckets : List (Option String × List Sample)) (fs : FS) (lp : FPath)
    (hne : ∀ plat, sraDir outRoot plat ++ ["submit.ready"] ≠ lp)
    (h : logOk lp fs) : logOk lp (sraBuckets o outRoot buckets fs).1 := by
  induction buckets generalizing fs with
  | nil => exact h
  | cons b rest ih =>
    obtain ⟨plat, ss⟩ := b
    simp only [sraBuckets]
    split
    · rename_i heq
      have hb := logOk_bucketPhase o (sraDir outRoot plat) ss fs lp
        (hne plat) h
      exact hb
    · exact ih _ (logOk_prepare _ _ _ _ _
        (logOk_bucketPhase o (sraDir outRoot plat) ss fs lp (hne plat) h))

theorem logOk_genbankLoop (o : Oracle) (outRoot : FPath) (ss : List Sample)
    (fs : FS) (lp : FPath) (h : logOk lp fs) :
    logOk lp (genbankLoop o outRoot ss fs).1 := by
  induction ss generalizing fs with
  | nil => exact h
  | cons a rest ih =>
    rw [genbankLoop]
    split
    · exact logOk_mkdirp _ _ _ h
    · exact ih _ (logOk_mkdirp _ _ _ h)

theorem append_ne_of_length_ne (o : FPath) (l₁ l₂ : List String)
    (h : l₁.length ≠ l₂.length) : o ++ l₁ ≠ o ++ l₂ := by
  intro he
  apply h
  have hl := congrArg List.length he
  simp only [List.length_append] at hl
  omega

theorem logOk_andThen (lp : FPath) (a : FS × List Ev × Option Err)
    (k : FS → FS × List Ev × Option Err) (ha : logOk lp a.1)
    (hk : ∀ fs, logOk lp fs → logOk lp (k fs).1) :
    logOk lp (andThen a k).1 := by
  obtain ⟨fs, tr, e⟩ := a
  cases e with
  | none => exact hk fs ha
  | some e => exact ha

theorem logOk_phases (p : Params) (o : Oracle) (samples : List Sample)
    (fs : FS) (h : logOk (logPath p) fs) :
    logOk (logPath p) (phases p o samples fs).1 := by
  have hbio : (p.outdir ++ ["biosample"]) ++ ["submit.ready"] ≠ logPath p := by
    rw [List.append_assoc]
    exact append_ne_of_length_ne _ _ _ (by decide)
  have hsra : ∀ plat, sraDir p.outdir plat ++ ["submit.ready"] ≠ logPath p := by
    intro plat
    cases plat with
    | none =>
      show (p.outdir ++ ["sra"]) ++ ["submit.ready"] ≠ logPath p
      rw [List.append_assoc]
      exact append_ne_of_length_ne _ _ _ (by decide)
    | some pl =>
      show (p.outdir ++ ["sra", pl]) ++ ["submit.ready"] ≠ logPath p
      rw [List.append_assoc]
      exact append_ne_of_length_ne _ _ _ (by simp)
  rw [phases]
  refine logOk_andThen _ _ _ ?_ (fun fs1 h1 => ?_)
  · split
    · exact logOk_bucketPhase _ _ _ _ _ hbio h
    · exact h
  · refine logOk_andThen _ _ _ ?_ (fun fs2 h2 => ?_)
    · split
      · exact logOk_sraBuckets _ _ _ _ _ hsra h1
      · exact h1
    · split
      · exact logOk_genbankLoop _ _ _ _ _ h2
      · exact h2

theorem endOfRunLog_logOk (lp : FPath) (fs : FS) :
    logOk lp (endOfRunLog lp fs) := by
  have h1 : logOk lp
      (fs.appendFile lp "[INFO] Script completed successfully\n") :=
    logOk_appendFile_self _ _ _ (by decide)
  obtain ⟨c, hc, hcne⟩ := h1
  simp only [endOfRunLog, hc, Option.isNone_some, Bool.false_eq_true,
    if_false]
  split
  · exact logOk_appendFile_self _ _ _ (by decide)
  · exact ⟨c, hc, hcne⟩

theorem main_prepare_logOk (p : Params) (o : Oracle) :
    logOk (logPath p) (main_prepare p o).1 := by
  have h2 : logOk (logPath p)
      (((FS.empty.mkdirp p.outdir).writeFile (logPath p)
          "[INFO] Log file initialized\n").appendFile (logPath p)
        "[INFO] Started logging for preparation.\n") :=
    logOk_appendFile_self _ _ _ (by decide)
  simp only [main_prepare]
  split
  · exact h2
  · split
    · exact h2
    · split
      · exact h2
      · split
        · exact logOk_phases _ _ _ _ h2
        · exact endOfRunLog_logOk _ _

/-- C1: after every run of the top-level handler — success, or a Python
exception escaping `main_prepare` at any point after the log path is
fixed (config/metadata loading, descriptor parsing, or a builder call
such as `add_sample` raising) — the completion log
`{outdir}/prep_submission.log` exists with non-empty content in the
final filesystem. -/
theorem completion_log_nonempty (p : Params) (o : Oracle) :
    ∃ c, lookupFile (topRun p o).1.files (logPath p) = some c ∧ c ≠ "" := by
  have hm := main_prepare_logOk p o
  simp only [topRun]
  split
  · obtain ⟨c, hc, hcne⟩ := hm
    rw [hc]
    simp only [Option.isSome_some, if_true]
    exact logOk_appendFile_self _ _ _ (by decide)
  · exact logOk_appendFile_self _ _ _ (by decide)

/-- Concrete configuration: SRA enabled, no sample descriptors at all
(so both platform subsets are empty). -/
def exParamsSraEmpty : Params :=
  ⟨["out"], "meta/batch1.tsv", "sp", "id", "ftp", false, false, true, false,
    []⟩

/-- C2 counterexample: with the SRA flag on and both platform subsets
empty, the source still runs one unlabeled bucket over the empty
sample list — the sra directory is created, a builder lifecycle is
driven, and submit.ready is written. -/
theorem sra_empty_counterexample :
    (topRun exParamsSraEmpty Oracle.allOk).1.dirs =
        [["out"], ["out", "sra"]] ∧
      (topRun exParamsSraEmpty Oracle.allOk).2.1 =
        [Ev.mkdirE ["out"], Ev.mkdirE ["out", "sra"],
          Ev.initXmlRoot ["out", "sra"], Ev.finalizeOk ["out", "sra"],
          Ev.sentinelE ["out", "sra"]] ∧
      lookupFile (topRun exParamsSraEmpty Oracle.allOk).1.files
        ["out", "sra", "submit.ready"] = some "" := by decide

/-- C2 (amended): when both platform subsets are empty the router
yields one unlabeled bucket holding the empty subset, and — provided
the builder calls for the sra directory do not raise — the SRA section
still creates `outdir/sra`, drives a builder lifecycle with zero
`add_sample` calls, and writes the `submit.ready` sentinel. -/
theorem sra_empty_emits_one_bucket (samples : List Sample) (o : Oracle)
    (outRoot : FPath) (fs : FS)
    (hIll : samples.filter (fun s => truthy s.fastq1 && truthy s.fastq2) = [])
    (hNano : samples.filter (fun s => truthy s.nanopore) = [])
    (hInit : o.initXmlFails (outRoot ++ ["sra"]) = false)
    (hFin : o.finalizeFails (outRoot ++ ["sra"]) = false) :
    platformsOf samples = [(none, [])] ∧
      sraBuckets o outRoot (platformsOf samples) fs =
        ((fs.mkdirp (outRoot ++ ["sra"])).writeFile
            ((outRoot ++ ["sra"]) ++ ["submit.ready"]) "",
          [Ev.mkdirE (outRoot ++ ["sra"]),
            Ev.initXmlRoot (outRoot ++ ["sra"]),
            Ev.finalizeOk (outRoot ++ ["sra"]),
            Ev.sentinelE (outRoot ++ ["sra"])],
          none) := by
  have hp : platformsOf samples = [(none, [])] := by
    simp only [platformsOf, hIll, hNano]
    simp
  refine ⟨hp, ?_⟩
  rw [hp]
  simp only [sraBuckets, sraDir, bucketPhase, addLoop, hInit, hFin,
    prepare_sra_fastqs]
  simp

/-- Closed witness for `sra_empty_emits_one_bucket` on the empty sample
list with the all-succeeding oracle. -/
theorem sra_empty_emits_one_bucket_witness :
    platformsOf [] = [(none, [])] ∧
      sraBuckets Oracle.allOk ["out"] (platformsOf []) FS.empty =
        ((FS.empty.mkdirp (["out"] ++ ["sra"])).writeFile
            ((["out"] ++ ["sra"]) ++ ["submit.ready"]) "",
          [Ev.mkdirE (["out"] ++ ["sra"]),
            Ev.initXmlRoot (["out"] ++ ["sra"]),
            Ev.finalizeOk (["out"] ++ ["sra"]),
            Ev.sentinelE (["out"] ++ ["sra"])],
          none) :=
  sra_empty_emits_one_bucket [] Oracle.allOk ["out"] FS.empty
    (by decide) (by decide) (by decide) (by decide)

/-- C7 counterexample: in the concrete single-bucket SRA run the
sentinel write is trace index 5 while the staging of the R1 file only
happens afterwards (it is in the trace but not among the first six
events) — so at the moment the sentinel exists the staged raw-read
files are not yet present. -/
theorem sentinel_before_staging_counterexample :
    (topRun exParamsSra Oracle.allOk).2.1[5]? =
        some (Ev.sentinelE ["out", "sra"]) ∧
      (topRun exParamsSra Oracle.allOk).2.1[6]? =
        some (Ev.linkE "/a/S1_R1.fastq.gz"
          ["out", "sra", "S1_R1.fastq.gz"]) ∧
      ∀ j : Nat, j < 6 → (topRun exParamsSra Oracle.allOk).2.1[j]? ≠
        some (Ev.linkE "/a/S1_R1.fastq.gz"
          ["out", "sra", "S1_R1.fastq.gz"]) := by decide

theorem bucketPhase_mono (o : Oracle) (dir : FPath) (ss : List Sample)
    (fs : FS) (q : FPath) (h : fs.pathExists q) :
    (bucketPhase o dir ss fs).1.pathExists q := by
  simp only [bucketPhase]
  split
  · exact pathExists_mkdirp _ _ _ h
  · split <;> try split
    all_goals
      first
      | exact pathExists_mkdirp _ _ _ h
      | exact pathExists_writeFile _ _ _ _ (pathExists_mkdirp _ _ _ h)

theorem sraBuckets_mono (o : Oracle) (outRoot : FPath)
    (buckets : List (Option String × List Sample)) (fs : FS) (q : FPath)
    (h : fs.pathExists q) :
    (sraBuckets o outRoot buckets fs).1.pathExists q := by
  induction buckets generalizing fs with
  | nil => exact h
  | cons b rest ih =>
    obtain ⟨plat, ss⟩ := b
    simp only [sraBuckets]
    rcases hbb : (bucketPhase o (sraDir outRoot plat) ss fs).2.2 with _ | e
    all_goals simp only [hbb]
    · exact ih _ (prepare_mono _ _ _ _ _ (bucketPhase_mono _ _ _ _ _ h))
    · exact bucketPhase_mono _ _ _ _ _ h

theorem bucketPhase_none_sentinel (o : Oracle) (dir : FPath)
    (ss : List Sample) (fs : FS)
    (h : (bucketPhase o dir ss fs).2.2 = none) :
    (bucketPhase o dir ss fs).1.pathExists (dir ++ ["submit.ready"]) := by
  simp only [bucketPhase] at h ⊢
  rcases hinit : o.initXmlFails dir with _ | _
  all_goals simp only [hinit] at h ⊢
  · rcases hadd : (addLoop o dir ss).2 with _ | e
    all_goals simp only [hadd] at h ⊢
    · rcases hfin : o.finalizeFails dir with _ | _
      all_goals simp only [hfin] at h ⊢
      · simp only [Bool.false_eq_true, if_false] at h ⊢
        exact pathExists_writeFile_self _ _ _
      · simp at h
    · simp at h
  · simp at h

/-- C7 (amended): the sentinel is written immediately after a
successful `finalize_xml` and *before* staging, so when the sentinel
appears the staged raw-read files may still be absent; what the code
does guarantee is that once the SRA bucket loop completes without an
exception, the final filesystem holds, for every bucket, both the
sentinel and the staged R1/R2 files of every paired-read sample of
that bucket. -/
theorem sra_complete_at_end (o : Oracle) (outRoot : FPath)
    (buckets : List (Option String × List Sample)) (fs : FS)
    (h : (sraBuckets o outRoot buckets fs).2.2 = none) :
    ∀ plat ss, (plat, ss) ∈ buckets →
      (sraBuckets o outRoot buckets fs).1.pathExists
          (sraDir outRoot plat ++ ["submit.ready"]) ∧
        ∀ s ∈ ss, truthy s.fastq1 = true → truthy s.fastq2 = true →
          (sraBuckets o outRoot buckets fs).1.pathExists
              (destFq1 (sraDir outRoot plat) s) ∧
            (sraBuckets o outRoot buckets fs).1.pathExists
              (destFq2 (sraDir outRoot plat) s) := by
  induction buckets generalizing fs with
  | nil => intro plat ss hmem; cases hmem
  | cons b rest ih =>
    obtain ⟨plat0, ss0⟩ := b
    intro plat ss hmem
    simp only [sraBuckets] at h ⊢
    rcases hbb : (bucketPhase o (sraDir outRoot plat0) ss0 fs).2.2 with _ | e
    all_goals simp only [hbb] at h ⊢
    · rcases List.mem_cons.mp hmem with heq | hmem'
      · injection heq with heq1 heq2
        subst heq1
        subst heq2
        constructor
        · exact sraBuckets_mono _ _ _ _ _
            (prepare_mono _ _ _ _ _
              (bucketPhase_none_sentinel _ _ _ _ hbb))
        · intro s hs h1 h2
          refine ⟨sraBuckets_mono _ _ _ _ _ ?_, sraBuckets_mono _ _ _ _ _ ?_⟩
          · exact (prepare_exists_dests _ _ _ _ s hs h1 h2).1
          · exact (prepare_exists_dests _ _ _ _ s hs h1 h2).2
      · exact ih _ h plat ss hmem'
    · cases h

/-- Closed witness for `sra_complete_at_end`: a completed single-bucket
run ends with sentinel and staged files present. -/
theorem sra_complete_at_end_witness :
    (sraBuckets Oracle.allOk ["out"] [(none, [exSampleBoth])]
          FS.empty).2.2 = none ∧
      ((sraBuckets Oracle.allOk ["out"] [(none, [exSampleBoth])]
            FS.empty).1.pathExists
          (sraDir ["out"] none ++ ["submit.ready"]) ∧
        ∀ s ∈ [exSampleBoth], truthy s.fastq1 = true →
          truthy s.fastq2 = true →
          (sraBuckets Oracle.allOk ["out"] [(none, [exSampleBoth])]
                FS.empty).1.pathExists
              (destFq1 (sraDir ["out"] none) s) ∧
            (sraBuckets Oracle.allOk ["out"] [(none, [exSampleBoth])]
                FS.empty).1.pathExists
              (destFq2 (sraDir ["out"] none) s)) :=
  ⟨by decide,
    sra_complete_at_end Oracle.allOk ["out"] [(none, [exSampleBoth])]
      FS.empty (by decide) none [exSampleBoth]
      (List.mem_cons_self _ _)⟩

/-- Concrete configuration: GenBank enabled with two samples A and B. -/
def exParamsGb : Params :=
  ⟨["out"], "meta/batch1.tsv", "sp", "id", "ftp", false, false, false, true,
    ["sample_id=A", "sample_id=B"]⟩

/-- Oracle whose GenBank driver raises for sample A only. -/
def exOracleGbFail : Oracle :=
  ⟨false, false, fun _ => false, fun _ _ => false, fun _ => false,
    fun d _ => d == ["out", "genbank", "A"]⟩

/-- C8 counterexample: with two GenBank samples and the driver raising
on the first, the exception aborts the loop — the submission
directory of sample B is never created and its driver is never invoked (the final
directory list and trace contain nothing for B). -/
theorem genbank_abort_counterexample :
    (topRun exParamsGb exOracleGbFail).2.2 =
        some (Err.builderError ["out", "genbank", "A"] "genbank_driver") ∧
      (topRun exParamsGb exOracleGbFail).1.dirs =
        [["out"], ["out", "genbank", "A"]] ∧
      (topRun exParamsGb exOracleGbFail).2.1 =
        [Ev.mkdirE ["out"], Ev.mkdirE ["out", "genbank", "A"]] := by decide

theorem mkdirp_self_mem (fs : FS) (d : FPath) : d ∈ (fs.mkdirp d).dirs := by
  rw [FS.mkdirp]
  split
  · assumption
  · exact List.mem_append_right _ (List.mem_singleton.mpr rfl)

theorem mkdirp_mem_mono (fs : FS) (d q : FPath) (h : q ∈ fs.dirs) :
    q ∈ (fs.mkdirp d).dirs := by
  rw [FS.mkdirp]
  split
  · exact h
  · exact List.mem_append_left _ h

theorem genbankLoop_dirs_mono (o : Oracle) (outRoot : FPath)
    (ss : List Sample) (fs : FS) (q : FPath) (h : q ∈ fs.dirs) :
    q ∈ (genbankLoop o outRoot ss fs).1.dirs := by
  induction ss generalizing fs with
  | nil => exact h
  | cons a rest ih =>
    rw [genbankLoop]
    split
    · exact mkdirp_mem_mono _ _ _ h
    · exact ih _ (mkdirp_mem_mono _ _ _ h)

/-- C8 (amended): the GenBank section gives every sample its own
submission directory and one driver invocation in list order as long
as no driver raises; but there is no per-sample exception isolation —
the first raising driver aborts the loop, so the samples after it get
neither a directory nor a driver call (the trace of the run ends at
the mkdir of the failing sample). -/
theorem genbank_per_sample_no_isolation (o : Oracle) (outRoot : FPath) :
    (∀ ss : List Sample, ∀ fs : FS,
      (∀ s ∈ ss, o.driveFails (outRoot ++ ["genbank", s.sample_id])
        s.sample_id = false) →
      (genbankLoop o outRoot ss fs).2.1 =
          (ss.map (fun s =>
            [Ev.mkdirE (outRoot ++ ["genbank", s.sample_id]),
              Ev.driveE (outRoot ++ ["genbank", s.sample_id])
                s.sample_id])).flatten ∧
        (genbankLoop o outRoot ss fs).2.2 = none ∧
        ∀ s ∈ ss, (outRoot ++ ["genbank", s.sample_id]) ∈
          (genbankLoop o outRoot ss fs).1.dirs) ∧
    (∀ pre : List Sample, ∀ s0 : Sample, ∀ post : List Sample, ∀ fs : FS,
      (∀ s ∈ pre, o.driveFails (outRoot ++ ["genbank", s.sample_id])
        s.sample_id = false) →
      o.driveFails (outRoot ++ ["genbank", s0.sample_id])
        s0.sample_id = true →
      (genbankLoop o outRoot (pre ++ s0 :: post) fs).2.2 =
          some (Err.builderError (outRoot ++ ["genbank", s0.sample_id])
            "genbank_driver") ∧
        (genbankLoop o outRoot (pre ++ s0 :: post) fs).2.1 =
          (pre.map (fun s =>
            [Ev.mkdirE (outRoot ++ ["genbank", s.sample_id]),
              Ev.driveE (outRoot ++ ["genbank", s.sample_id])
                s.sample_id])).flatten ++
            [Ev.mkdirE (outRoot ++ ["genbank", s0.sample_id])]) := by
  constructor
  · intro ss
    induction ss with
    | nil => intro fs h; exact ⟨rfl, rfl, by intro s hs; cases hs⟩
    | cons a rest ih =>
      intro fs h
      simp only [genbankLoop]
      rw [if_neg (by rw [h a (List.mem_cons_self _ _)]; simp)]
      obtain ⟨htr, herr, hdirs⟩ :=
        ih ((fs.mkdirp (outRoot ++ ["genbank", a.sample_id])))
          (fun s hs => h s (List.mem_cons_of_mem _ hs))
      refine ⟨?_, herr, ?_⟩
      · rw [htr]
        simp
      · intro s hs
        rcases List.mem_cons.mp hs with rfl | hmem
        · exact genbankLoop_dirs_mono _ _ _ _ _ (mkdirp_self_mem _ _)
        · exact hdirs s hmem
  · intro pre
    induction pre with
    | nil =>
      intro s0 post fs _ hfail
      rw [List.nil_append]
      simp only [genbankLoop]
      rw [if_pos (by rw [hfail])]
      exact ⟨rfl, by simp⟩
    | cons a rest ih =>
      intro s0 post fs h hfail
      rw [List.cons_append]
      simp only [genbankLoop]
      rw [if_neg (by rw [h a (List.mem_cons_self _ _)]; simp)]
      obtain ⟨herr, htr⟩ := ih s0 post
        (fs.mkdirp (outRoot ++ ["genbank", a.sample_id]))
        (fun s hs => h s (List.mem_cons_of_mem _ hs)) hfail
      refine ⟨herr, ?_⟩
      rw [htr]
      simp

/-- Closed witness for `genbank_per_sample_no_isolation`, using its
no-failure half on two concrete samples. -/
theorem genbank_per_sample_no_isolation_witness :
    (∀ s ∈ [exSampleBoth, exSampleNano],
      Oracle.allOk.driveFails (["out"] ++ ["genbank", s.sample_id])
        s.sample_id = false) ∧
      ((genbankLoop Oracle.allOk ["out"] [exSampleBoth, exSampleNano]
            FS.empty).2.1 =
          ([exSampleBoth, exSampleNano].map (fun s =>
            [Ev.mkdirE (["out"] ++ ["genbank", s.sample_id]),
              Ev.driveE (["out"] ++ ["genbank", s.sample_id])
                s.sample_id])).flatten ∧
        (genbankLoop Oracle.allOk ["out"] [exSampleBoth, exSampleNano]
            FS.empty).2.2 = none ∧
        ∀ s ∈ [exSampleBoth, exSampleNano],
          (["out"] ++ ["genbank", s.sample_id]) ∈
            (genbankLoop Oracle.allOk ["out"] [exSampleBoth, exSampleNano]
              FS.empty).1.dirs) :=
  ⟨by decide,
    (genbank_per_sample_no_isolation Oracle.allOk ["out"]).1
      [exSampleBoth, exSampleNano] FS.empty (by decide)⟩

/-- Concrete configuration whose single sample descriptor cannot be
split into key=value pairs. -/
def exParamsBad : Params :=
  ⟨["out"], "meta/batch1.tsv", "sp", "id", "ftp", false, false, true, false,
    ["garbage"]⟩

/-- C9 counterexample: a malformed descriptor does abort the run, but
only after the output root directory and the completion log file were
already created — so filesystem artifacts of the run do exist at the
point the failure is raised. -/
theorem malformed_artifacts_counterexample :
    (topRun exParamsBad Oracle.allOk).2.2 =
        some (Err.malformedDescriptor "garbage") ∧
      (topRun exParamsBad Oracle.allOk).1.dirs = [["out"]] ∧
      lookupFile (topRun exParamsBad Oracle.allOk).1.files
          ["out", "prep_submission.log"] =
        some ("[INFO] Log file initialized\n" ++
          "[INFO] Started logging for preparation.\n" ++
          "[ERROR] Script failed\n") := by decide

/-- C9 (amended): a malformed sample descriptor aborts the run before
any *submission* directory or builder activity — at the failure the
directory list holds only the output root, the only file is the
completion log, and the trace holds only the output-root mkdir — but
the output root and the log file themselves already exist, so the
abort is not prior to every filesystem artifact. -/
theorem malformed_aborts_before_submission_dirs (p : Params) (o : Oracle)
    (ds : String) (hc : o.configFails = false) (hm : o.metadataFails = false)
    (hb : buildSamples p (batchId p) p.sampleDescs =
      .error (.malformedDescriptor ds)) :
    (topRun p o).2.2 = some (Err.malformedDescriptor ds) ∧
      (topRun p o).1.dirs = [p.outdir] ∧
      (topRun p o).2.1 = [Ev.mkdirE p.outdir] ∧
      ∃ c, (topRun p o).1.files = [(logPath p, c)] ∧ c ≠ "" := by
  have hfs2 : ((FS.empty.mkdirp p.outdir).writeFile (logPath p)
        "[INFO] Log file initialized\n").appendFile (logPath p)
        "[INFO] Started logging for preparation.\n" =
      ⟨[p.outdir],
        [(logPath p,
          "[INFO] Log file initialized\n" ++
            "[INFO] Started logging for preparation.\n")]⟩ := by
    simp [FS.empty, FS.mkdirp, FS.writeFile, FS.appendFile, setFile,
      lookupFile]
  simp only [topRun, main_prepare, hc, hm, hb, Bool.false_eq_true,
    if_false, hfs2]
  simp [FS.appendFile, lookupFile, setFile]

/-- Closed witness for `malformed_aborts_before_submission_dirs` at the
concrete malformed-descriptor configuration. -/
theorem malformed_aborts_before_submission_dirs_witness :
    (Oracle.allOk.configFails = false ∧ Oracle.allOk.metadataFails = false ∧
      buildSamples exParamsBad (batchId exParamsBad)
          exParamsBad.sampleDescs =
        .error (.malformedDescriptor "garbage")) ∧
      ((topRun exParamsBad Oracle.allOk).2.2 =
          some (Err.malformedDescriptor "garbage") ∧
        (topRun exParamsBad Oracle.allOk).1.dirs = [exParamsBad.outdir] ∧
        (topRun exParamsBad Oracle.allOk).2.1 =
          [Ev.mkdirE exParamsBad.outdir] ∧
        ∃ c, (topRun exParamsBad Oracle.allOk).1.files =
          [(logPath exParamsBad, c)] ∧ c ≠ "") :=
  ⟨⟨rfl, rfl, rfl⟩,
    malformed_aborts_before_submission_dirs exParamsBad Oracle.allOk
      "garbage" rfl rfl rfl⟩

theorem mkSample_ok (p : Params) (b : String) (ds : String) (s : Sample)
    (h : mkSample p b ds = .ok s) :
    s.databases = dbList p ∧ s.species = p.species ∧ s.batch_id = b := by
  simp only [mkSample] at h
  rcases hp : parseDescriptor ds with _ | d
  · simp only [hp] at h
    cases h
  · simp only [hp] at h
    rcases hg : dictGet d "sample_id" with _ | sid
    · simp only [hg] at h
      cases h
    · simp only [hg] at h
      injection h with h
      subst h
      exact ⟨rfl, rfl, rfl⟩

theorem buildSamples_ok (p : Params) (b : String) (descs : List String)
    (ss : List Sample) (h : buildSamples p b descs = .ok ss) :
    ∀ s ∈ ss, s.databases = dbList p ∧ s.species = p.species ∧
      s.batch_id = b := by
  induction descs generalizing ss with
  | nil =>
    simp only [buildSamples] at h
    injection h with h
    subst h
    intro s hs
    cases hs
  | cons d rest ih =>
    simp only [buildSamples] at h
    rcases hm : mkSample p b d with e | smp
    · simp only [hm] at h
      cases h
    · simp only [hm] at h
      rcases hr : buildSamples p b rest with e | more
      · simp only [hr] at h
        cases h
      · simp only [hr] at h
        injection h with h
        subst h
        intro s hs
        rcases List.mem_cons.mp hs with rfl | hmem
        · exact mkSample_ok p b d s hm
        · exact ih more hr s hmem

/-- The per-sample databases rewrite used to state that the
orchestrator never consults the per-sample `databases` field. -/
def setDbs (dbs : List String) (s : Sample) : Sample :=
  { s with databases := dbs }

theorem addLoop_setDbs (o : Oracle) (dir : FPath) (ss : List Sample)
    (dbs : List String) :
    addLoop o dir (ss.map (setDbs dbs)) = addLoop o dir ss := by
  induction ss with
  | nil => rfl
  | cons a rest ih =>
    simp only [List.map_cons, addLoop, setDbs]
    rw [ih]

theorem prepare_setDbs (ss : List Sample) (dir : FPath) (c : Bool)
    (fs : FS) (dbs : List String) :
    prepare_sra_fastqs (ss.map (setDbs dbs)) dir c fs =
      prepare_sra_fastqs ss dir c fs := by
  induction ss generalizing fs with
  | nil => rfl
  | cons a rest ih =>
    simp only [List.map_cons, prepare_sra_fastqs, setDbs]
    by_cases hc : (truthy a.fastq1 && truthy a.fastq2) = true
    · simp only [hc, if_true, destFq1, destFq2]
      rw [ih]
    · simp only [hc, if_false]
      exact ih _

theorem bucketPhase_setDbs (o : Oracle) (dir : FPath) (ss : List Sample)
    (fs : FS) (dbs : List String) :
    bucketPhase o dir (ss.map (setDbs dbs)) fs = bucketPhase o dir ss fs := by
  simp only [bucketPhase, addLoop_setDbs]

theorem sraBuckets_setDbs (o : Oracle) (outRoot : FPath)
    (buckets : List (Option String × List Sample)) (fs : FS)
    (dbs : List String) :
    sraBuckets o outRoot
        (buckets.map (fun b => (b.1, b.2.map (setDbs dbs)))) fs =
      sraBuckets o outRoot buckets fs := by
  induction buckets generalizing fs with
  | nil => rfl
  | cons b rest ih =>
    obtain ⟨plat, ss⟩ := b
    simp only [List.map_cons, sraBuckets, bucketPhase_setDbs,
      prepare_setDbs, ih]

theorem genbankLoop_setDbs (o : Oracle) (outRoot : FPath)
    (ss : List Sample) (fs : FS) (dbs : List String) :
    genbankLoop o outRoot (ss.map (setDbs dbs)) fs =
      genbankLoop o outRoot ss fs := by
  induction ss generalizing fs with
  | nil => rfl
  | cons a rest ih =>
    simp only [List.map_cons, genbankLoop, setDbs]
    rw [ih]

theorem platformsOf_setDbs (ss : List Sample) (dbs : List String) :
    platformsOf (ss.map (setDbs dbs)) =
      (platformsOf ss).map (fun b => (b.1, b.2.map (setDbs dbs))) := by
  simp only [platformsOf]
  rw [List.filter_map, List.filter_map]
  have h1 : (fun s => truthy s.fastq1 && truthy s.fastq2) ∘ setDbs dbs =
      (fun s => truthy s.fastq1 && truthy s.fastq2) := by
    funext s
    rfl
  have h2 : (fun s => truthy s.nanopore) ∘ setDbs dbs =
      (fun s => truthy s.nanopore) := by
    funext s
    rfl
  rw [h1, h2]
  by_cases hi : ss.filter (fun s => truthy s.fastq1 && truthy s.fastq2) = []
  · by_cases hn : ss.filter (fun s => truthy s.nanopore) = []
    · simp [hi, hn]
    · simp [hi, hn]
  · by_cases hn : ss.filter (fun s => truthy s.nanopore) = []
    · simp [hi, hn]
    · simp [hi, hn]

theorem phases_setDbs (p : Params) (o : Oracle) (ss : List Sample)
    (fs : FS) (dbs : List String) :
    phases p o (ss.map (setDbs dbs)) fs = phases p o ss fs := by
  simp only [phases, bucketPhase_setDbs, platformsOf_setDbs,
    sraBuckets_setDbs, genbankLoop_setDbs]

/-- C10: every sample constructed in one run carries the same
`databases` list — computed from the configuration flags alone — and
the same batch-wide `species` and `batch_id`; moreover the repository
sections of the orchestrator are invariant under arbitrary rewrites of
the `databases` field of every sample, i.e. routing never consults it. -/
theorem samples_uniform_and_routing_ignores_databases :
    (∀ (p : Params) (b : String) (descs : List String)
      (ss : List Sample), buildSamples p b descs = .ok ss →
      ∀ s ∈ ss, s.databases = dbList p ∧ s.species = p.species ∧
        s.batch_id = b) ∧
    (∀ (p : Params) (o : Oracle) (ss : List Sample) (fs : FS)
      (dbs : List String),
      phases p o (ss.map (setDbs dbs)) fs = phases p o ss fs) :=
  ⟨buildSamples_ok, phases_setDbs⟩

/-- The sample `main_prepare` builds from the descriptor of
`exParamsSra`. -/
def exBuiltSample : Sample :=
  ⟨"S1", "batch1", some "/a/S1_R1.fastq.gz", some "/a/S1_R2.fastq.gz",
    none, "sp", ["sra"], none, none⟩

/-- Closed witness for
`samples_uniform_and_routing_ignores_databases` on a concrete
successful construction. -/
theorem samples_uniform_witness :
    buildSamples exParamsSra (batchId exParamsSra)
        exParamsSra.sampleDescs = .ok [exBuiltSample] ∧
      (∀ s ∈ [exBuiltSample],
        s.databases = dbList exParamsSra ∧
          s.species = exParamsSra.species ∧
          s.batch_id = batchId exParamsSra) ∧
      phases exParamsSra Oracle.allOk
          ([exSampleBoth].map (setDbs ["genbank"])) FS.empty =
        phases exParamsSra Oracle.allOk [exSampleBoth] FS.empty :=
  ⟨rfl,
    (samples_uniform_and_routing_ignores_databases).1 exParamsSra
      (batchId exParamsSra) exParamsSra.sampleDescs _ rfl,
    (samples_uniform_and_routing_ignores_databases).2 exParamsSra
      Oracle.allOk [exSampleBoth] FS.empty ["genbank"]⟩
